import Mathlib

/-!
Shallow embedding of the three scripts of this repository:

* `rent_gpu.py` — offer retrieval (`get_offers`), a single rental attempt
  (`rent_instance`) and the selection-and-retry loop (`main`);
* `wait_for_gpu.py` — status-poll Variant A (`check_status` returning a state,
  the `while True` loop breaking on `"running"`);
* `wait_for_gpu_2.py` — status-poll Variant B (`check_status` returning the
  full record, the `while True` loop breaking on `"running"` and printing the
  SSH coordinates).

The external CLI is opaque: its observable behaviour (raised exception or
captured stdout, and the JSON value `json.loads` produces from that stdout)
is a parameter of each embedded function.  Machine-level details (actual
subprocess spawning, `time.sleep`) have no bearing on the claims and are not
modelled; the unbounded `while True` loops are modelled by fuelled runs, with
termination meaning that some fuel suffices.
-/

/-- A JSON value as produced by `json.loads`: the data exchanged with the
external CLI.  Numbers are modelled as rationals (Python parses them to
`int`/`float`; every literal in play is exactly representable).  An object is
an association list of string keys; `json.loads` yields unique keys, and
lookup takes the first binding. -/
inductive JVal where
  | null : JVal
  | bool : Bool → JVal
  | num : Rat → JVal
  | str : String → JVal
  | arr : List JVal → JVal
  | obj : List (String × JVal) → JVal

/-- Python dictionary access on a parsed JSON value: `some` the bound value
when the value is an object with the key, `none` otherwise.  `d[k]` raising
(missing key, or indexing a non-dict) and `d.get(k)` returning `None` are both
represented by `none`; the caller decides which meaning applies. -/
def JVal.getKey : JVal → String → Option JVal
  | .obj fields, k => fields.lookup k
  | _, _ => none

/-! ## rent_gpu.py -/

/-- Outcome of one `subprocess.run(cmd, capture_output=True, text=True)`
call: either the call raised, or it completed with captured stdout and
stderr. -/
inductive SubprocResult where
  | raised : SubprocResult
  | completed : String → String → SubprocResult

/-- `get_offers` of rent_gpu.py.  `loads` is the behaviour of `json.loads` on
the captured stdout (`Except.error` = `json.JSONDecodeError`).  The outer
`try` catches a raising `subprocess.run` and returns `[]`; the inner `try`
catches the decode error and returns `[]`; otherwise the parsed value is
returned as is.  The codomain is `Except` so that "no exception propagates to
the caller" is a provable statement, not a typing convention. -/
def get_offers (loads : String → Except String JVal) :
    SubprocResult → Except String JVal
  | .raised => .ok (.arr [])
  | .completed stdout _ =>
    match loads stdout with
    | .ok v => .ok v
    | .error _ => .ok (.arr [])

/-- Character-list prefix test, modelling the start of a Python substring
scan. -/
def prefixTest : List Char → List Char → Bool
  | [], _ => true
  | _ :: _, [] => false
  | c :: cs, d :: ds => (c == d) && prefixTest cs ds

/-- Character-list substring scan: `substrTest needle hay` is Python's
`needle in hay` on the underlying characters. -/
def substrTest (needle : List Char) : List Char → Bool
  | [] => prefixTest needle []
  | d :: ds => prefixTest needle (d :: ds) || substrTest needle ds

/-- Python's `needle in hay` on strings. -/
def strContains (hay needle : String) : Bool :=
  substrTest needle.toList hay.toList

/-- The success-flag marker checked by `rent_instance`. -/
def successFlag : String := "'success': True"

/-- `rent_instance` of rent_gpu.py, as a function of the captured stdout of
`vastai create instance`: returns `true` exactly when the stdout contains
`"started"` or the success-flag marker (the Python code checks
`result.stdout` for both markers; stderr is only echoed in the failure
message). -/
def rent_instance (stdout : String) : Bool :=
  strContains stdout "started" || strContains stdout successFlag

/-- An offer record as consumed by `main` of rent_gpu.py: only the fields the
loop reads.  A missing field of the Python dict is `none` (`x.get(...)`). -/
structure Offer where
  id : Option Int
  dph : Option Rat
  geolocation : Option String
  deriving DecidableEq

/-- The sort key `lambda x: x.get('dph', 999)` of `offers.sort`. -/
def sortKey (o : Offer) : Rat := o.dph.getD 999

/-- Boolean key comparison underlying the ascending sort. -/
def keyLE (a b : Offer) : Bool := decide (sortKey a ≤ sortKey b)

/-- `offers.sort(key=lambda x: x.get('dph', 999))`: Python's `list.sort` is a
stable ascending sort by the key, modelled by the stable `List.mergeSort`
with comparison `keyLE`. -/
def sortOffers (offers : List Offer) : List Offer :=
  offers.mergeSort keyLE

/-- The `for offer in offers` loop of `main`, on the already sorted list.
`rent` is the outcome of `rent_instance(offer.get('id'))` as decided by the
external client.  Result: the list of offers attempted, in order, and the
process exit status (`sys.exit(0)` on the first success, `sys.exit(1)` after
the loop exhausts the list). -/
def rentLoop (rent : Option Int → Bool) : List Offer → List Offer × Nat
  | [] => ([], 1)
  | o :: rest =>
    if rent o.id then ([o], 0)
    else
      let r := rentLoop rent rest
      (o :: r.1, r.2)

/-- `main` of rent_gpu.py after retrieval: sort the retrieved offers, then
run the rental loop. -/
def mainRun (rent : Option Int → Bool) (offers : List Offer) :
    List Offer × Nat :=
  rentLoop rent (sortOffers offers)

/-! ## Shared lookup of the two poll scripts -/

/-- Python's `inst['id'] == target` where the left side is a parsed JSON
value and `target` an integer literal: true for an equal number, and for a
boolean via Python's `True == 1` / `False == 0`; every other shape compares
unequal without raising. -/
def idMatches (target : Int) : JVal → Bool
  | .num q => decide (q = (target : Rat))
  | .bool b => decide ((if b then (1 : Rat) else 0) = (target : Rat))
  | _ => false

/-- One pass of `for inst in data: if inst['id'] == target: return inst`
over the parsed list.  `inst['id']` raises (`KeyError` on a dict without the
key, `TypeError` on a non-dict element) which the enclosing `except` catches,
abandoning the whole cycle: that abort and the fall-through after an
unsuccessful full pass are both `none`, exactly as in both scripts (Variant A
then reports `"unknown"`, Variant B `None`, in either case). -/
def findMatch (target : Int) : List JVal → Option JVal
  | [] => none
  | item :: rest =>
    match item.getKey "id" with
    | none => none
    | some v => if idMatches target v then some item else findMatch target rest

/-! ## wait_for_gpu.py (Variant A) -/

/-- The instance id hardcoded in wait_for_gpu.py. -/
def instanceIdA : Int := 28600842

/-- `check_status` of wait_for_gpu.py.  The argument is the observable of
`subprocess.run` plus `json.loads`: `none` when either raises (caught by the
`except`), `some v` for a parsed value `v`.  Iterating a non-list parsed
value either raises (`TypeError`) or yields non-dict elements whose `['id']`
raises, so every non-list value also ends in the `"unknown"` return, as does
a found record whose `['cur_state']` access raises. -/
def checkStatusA (resp : Option JVal) : JVal :=
  match resp with
  | some (.arr items) =>
    match findMatch instanceIdA items with
    | some inst =>
      match inst.getKey "cur_state" with
      | some st => st
      | none => .str "unknown"
    | none => .str "unknown"
  | _ => .str "unknown"

/-- Whether the Variant A loop body breaks this cycle:
`state == "running"` (a non-string state compares unequal). -/
def hitA (resp : Option JVal) : Bool :=
  match checkStatusA resp with
  | .str s => s == "running"
  | _ => false

/-- Fuelled run of Variant A's `while True` loop from cycle `i` over the
stream of per-cycle observables: `some n` when the loop breaks at cycle `n`
within the fuel, `none` when the fuel runs out first. -/
def pollA (resp : Nat → Option JVal) (i : Nat) : Nat → Option Nat
  | 0 => none
  | fuel + 1 => if hitA (resp i) then some i else pollA resp (i + 1) fuel

/-- Variant A's loop terminates on the stream `resp`. -/
def TerminatesA (resp : Nat → Option JVal) : Prop :=
  ∃ fuel n, pollA resp 0 fuel = some n

/-! ## wait_for_gpu_2.py (Variant B) -/

/-- The instance id hardcoded in wait_for_gpu_2.py (source name
`instance_id`). -/
def instance_id : Int := 28601048

/-- `check_status` of wait_for_gpu_2.py: the full first record whose `id`
matches, or `None`, with the same exception handling as Variant A. -/
def checkStatusB (resp : Option JVal) : Option JVal :=
  match resp with
  | some (.arr items) => findMatch instance_id items
  | _ => none

/-- Python's `state == "running"` where `state = inst.get('cur_state')`. -/
def isRunningState (st : Option JVal) : Bool :=
  match st with
  | some (.str s) => s == "running"
  | _ => false

/-- What the Variant B loop body prints in one cycle. -/
inductive ReportB where
  | notFound : ReportB
  | stateSeen : Option JVal → ReportB
  | runningSSH : Option JVal → Option JVal → ReportB

/-- One cycle of the Variant B `while True` body: with no record, print
"Instance not found in list yet..." and continue; with a record, print its
state, and on `"running"` also print `ssh_host`/`ssh_port` and break. -/
def cycleB (resp : Option JVal) : ReportB :=
  match checkStatusB resp with
  | none => .notFound
  | some inst =>
    if isRunningState (inst.getKey "cur_state") then
      .runningSSH (inst.getKey "ssh_host") (inst.getKey "ssh_port")
    else
      .stateSeen (inst.getKey "cur_state")

/-- Whether the Variant B loop body breaks this cycle. -/
def hitB (resp : Option JVal) : Bool :=
  match checkStatusB resp with
  | some inst => isRunningState (inst.getKey "cur_state")
  | none => false

/-- Fuelled run of Variant B's loop from cycle `i`: `some (n, inst)` when the
loop breaks at cycle `n` on record `inst` within the fuel. -/
def pollB (resp : Nat → Option JVal) (i : Nat) : Nat → Option (Nat × JVal)
  | 0 => none
  | fuel + 1 =>
    match checkStatusB (resp i) with
    | some inst =>
      if isRunningState (inst.getKey "cur_state") then some (i, inst)
      else pollB resp (i + 1) fuel
    | none => pollB resp (i + 1) fuel

/-- Variant B's loop terminates on the stream `resp`. -/
def TerminatesB (resp : Nat → Option JVal) : Prop :=
  ∃ fuel n inst, pollB resp 0 fuel = some (n, inst)

/-- The trigger named by the specification for Variant B, in the spec's own
words: the polled response contains a record whose `id` equals the target and
whose `cur_state` is `"running"`. -/
def containsRunningB (resp : Option JVal) : Bool :=
  match resp with
  | some (.arr items) =>
    items.any fun item =>
      (match item.getKey "id" with
       | some v => idMatches instance_id v
       | none => false)
      && isRunningState (item.getKey "cur_state")
  | _ => false

/-! ## Concrete records used by counterexamples and witnesses -/

/-- An offer with no `dph` field. -/
def oMiss : Offer := ⟨some 101, none, none⟩

/-- An offer priced above the 999 sentinel. -/
def oOver : Offer := ⟨some 102, some 1000, none⟩

/-- A cheap priced offer. -/
def wOffer : Offer := ⟨some 7, some 1, none⟩

/-- The spec's order requirement on the attempted list, as stated by the
claim: every offer whose `dph` field is missing comes after every offer that
has a price, i.e. no priced offer follows a missing-price one. -/
def missingLastB : List Offer → Bool
  | [] => true
  | o :: rest =>
    (!o.dph.isNone || rest.all fun x => x.dph.isNone) && missingLastB rest

/-! ## Concrete poll records for counterexamples and witnesses -/

/-- A record with Variant B's target id in a non-running state. -/
def recLoading : JVal :=
  .obj [("id", .num 28601048), ("cur_state", .str "loading")]

/-- A record with Variant B's target id in the running state, with SSH
coordinates. -/
def recRunningB : JVal :=
  .obj [("id", .num 28601048), ("cur_state", .str "running"),
        ("ssh_host", .str "ssh8.vast.ai"), ("ssh_port", .num 2222)]

/-- A record with Variant A's target id in the running state. -/
def recRunningA : JVal :=
  .obj [("id", .num 28600842), ("cur_state", .str "running")]

/-- A constant response stream: the target appears twice, first in state
`"loading"`, then in state `"running"`. -/
def cexRespB : Nat → Option JVal := fun _ => some (.arr [recLoading, recRunningB])

/-- A constant response stream whose single record is the running target. -/
def wRespB : Nat → Option JVal := fun _ => some (.arr [recRunningB])

/-! ## Helper lemmas: the sort and the rental loop -/

/-- `keyLE` is transitive. -/
theorem keyLE_trans : ∀ a b c : Offer, keyLE a b → keyLE b c → keyLE a c := by
  intro a b c hab hbc
  have h1 : sortKey a ≤ sortKey b := of_decide_eq_true hab
  have h2 : sortKey b ≤ sortKey c := of_decide_eq_true hbc
  exact decide_eq_true (le_trans h1 h2)

/-- `keyLE` is total. -/
theorem keyLE_total : ∀ a b : Offer, keyLE a b || keyLE b a := by
  intro a b
  rcases le_total (sortKey a) (sortKey b) with h | h
  · simp [keyLE, h]
  · simp [keyLE, h]

/-- The sorted offer list is pairwise ordered by the sort key. -/
theorem sortOffers_pairwise (offers : List Offer) :
    (sortOffers offers).Pairwise (keyLE · ·) :=
  List.sorted_mergeSort keyLE_trans keyLE_total offers

/-- With an always-failing external client the loop attempts the whole list
in order and exits 1. -/
theorem rentLoop_all_fail (l : List Offer) :
    rentLoop (fun _ => false) l = (l, 1) := by
  induction l with
  | nil => rfl
  | cons o rest ih => simp [rentLoop, ih]

/-- The attempted offers form a prefix of the list the loop runs over. -/
theorem rentLoop_trace_append (rent : Option Int → Bool) :
    ∀ l : List Offer, ∃ rest, l = (rentLoop rent l).1 ++ rest := by
  intro l
  induction l with
  | nil => exact ⟨[], rfl⟩
  | cons o t ih =>
    by_cases h : rent o.id
    · exact ⟨t, by simp [rentLoop, h]⟩
    · obtain ⟨r, hr⟩ := ih
      refine ⟨r, ?_⟩
      simpa [rentLoop, h] using hr

/-- C1, counterexample to the claim as stated: on the retrieved list
`[oMiss, oOver]` (one offer with no `dph`, one priced at 1000) the loop with
an always-failing client attempts the missing-price offer first — before an
offer that has a price — because the missing `dph` is keyed as the sentinel
999 < 1000, so the attempted order violates the claimed missing-last
property. -/
theorem c1_counterexample :
    (mainRun (fun _ => false) [oMiss, oOver]).1 = [oMiss, oOver] ∧
    oMiss.dph = none ∧ oOver.dph = some 1000 ∧
    missingLastB (mainRun (fun _ => false) [oMiss, oOver]).1 = false := by
  have hpair : List.Pairwise (keyLE · ·) [oMiss, oOver] := by
    refine List.pairwise_cons.mpr ⟨?_, ?_⟩
    · intro b hb
      rcases List.mem_singleton.mp hb with rfl
      simp [keyLE, sortKey, oMiss, oOver]
      norm_num
    · simp
  have hsorted : sortOffers [oMiss, oOver] = [oMiss, oOver] :=
    List.mergeSort_of_sorted hpair
  have hrun : mainRun (fun _ => false) [oMiss, oOver] = ([oMiss, oOver], 1) := by
    rw [mainRun, hsorted, rentLoop_all_fail]
  refine ⟨by rw [hrun], rfl, rfl, ?_⟩
  rw [hrun]
  rfl

/-- C1, amended: the rental loop attempts offers in non-decreasing order of
the sort key `x.get('dph', 999)`; consequently a missing-price offer is
attempted after every offer whose price is below the 999 sentinel, and any
later offer with a price is priced at least 999. -/
theorem c1_attempts_sorted_by_key (rent : Option Int → Bool)
    (offers : List Offer) :
    ((mainRun rent offers).1).Pairwise
      (fun a b => sortKey a ≤ sortKey b ∧
        (a.dph = none → ∀ q : Rat, b.dph = some q → 999 ≤ q)) := by
  obtain ⟨rest, hr⟩ := rentLoop_trace_append rent (sortOffers offers)
  have hsub : List.Sublist (mainRun rent offers).1 (sortOffers offers) := by
    rw [mainRun]
    conv_rhs => rw [hr]
    exact List.sublist_append_left _ _
  have hp : ((mainRun rent offers).1).Pairwise (keyLE · ·) :=
    (sortOffers_pairwise offers).sublist hsub
  refine hp.imp ?_
  intro a b hab
  have hle : sortKey a ≤ sortKey b := of_decide_eq_true hab
  refine ⟨hle, ?_⟩
  intro ha q hb
  have h1 : sortKey a = 999 := by simp [sortKey, ha]
  have h2 : sortKey b = q := by simp [sortKey, hb]
  rw [h1, h2] at hle
  exact hle

/-- C2: with an external client that fails every attempt, the flow attempts
exactly the sorted offer list (each retrieved offer exactly once, since the
sorted list is a permutation of the retrieved one) and exits with status 1. -/
theorem c2_all_fail_exhausts_sorted (offers : List Offer) :
    mainRun (fun _ => false) offers = (sortOffers offers, 1) ∧
    (sortOffers offers).Perm offers := by
  refine ⟨?_, List.mergeSort_perm offers keyLE⟩
  rw [mainRun, rentLoop_all_fail]

/-- C3, counterexample to the claim as stated: when retrieval yields no
offers, an always-succeeding client notwithstanding, the flow makes zero
rental attempts and exits with status 1, not with status 0 after one
attempt. -/
theorem c3_counterexample :
    (mainRun (fun _ => true) ([] : List Offer)).2 = 1 ∧
    (mainRun (fun _ => true) ([] : List Offer)).1.length = 0 := by
  constructor <;> simp [mainRun, sortOffers, rentLoop]

/-- C3, amended: when at least one offer was retrieved and the external
client reports success on every attempt, the flow exits with status 0 after
exactly one attempt, on an offer of minimal sort key (the cheapest offer,
with a missing price keyed as 999). -/
theorem c3_always_success_one_attempt (offers : List Offer)
    (h : offers ≠ []) :
    ∃ o, mainRun (fun _ => true) offers = ([o], 0) ∧ o ∈ offers ∧
      ∀ x ∈ offers, sortKey o ≤ sortKey x := by
  cases hsort : sortOffers offers with
  | nil =>
    exfalso
    apply h
    have hlen := congrArg List.length hsort
    rw [sortOffers] at hlen
    simpa using List.length_eq_zero.mp (by simpa using hlen)
  | cons o rest =>
    refine ⟨o, ?_, ?_, ?_⟩
    · rw [mainRun, hsort]
      simp [rentLoop]
    · have ho : o ∈ sortOffers offers := by
        rw [hsort]; exact List.mem_cons_self o rest
      rw [sortOffers] at ho
      exact List.mem_mergeSort.mp ho
    · intro x hx
      have hx' : x ∈ sortOffers offers := by
        rw [sortOffers]; exact List.mem_mergeSort.mpr hx
      rw [hsort] at hx'
      rcases List.mem_cons.mp hx' with rfl | hxt
      · exact le_refl _
      · have hp := sortOffers_pairwise offers
        rw [hsort] at hp
        exact of_decide_eq_true ((List.pairwise_cons.mp hp).1 x hxt)

/-- Witness for the amended C3 at the concrete one-offer list. -/
theorem c3_always_success_one_attempt_witness :
    (([wOffer] : List Offer) ≠ []) ∧
    (∃ o, mainRun (fun _ => true) [wOffer] = ([o], 0) ∧ o ∈ [wOffer] ∧
      ∀ x ∈ [wOffer], sortKey o ≤ sortKey x) :=
  ⟨by simp, c3_always_success_one_attempt [wOffer] (by simp)⟩

/-- C10: the attempted offers are an initial segment of the sorted list, and
the sort is stable — for every key value `q`, the offers whose sort key is
`q` (equal-priced offers; with `q = 999` also the missing-price offers
together with any offer priced exactly 999) appear in the sorted order
exactly as they were retrieved. -/
theorem c10_sort_stable (rent : Option Int → Bool) (offers : List Offer)
    (q : Rat) :
    (∃ rest, sortOffers offers = (mainRun rent offers).1 ++ rest) ∧
    (sortOffers offers).filter (fun o => decide (sortKey o = q)) =
      offers.filter (fun o => decide (sortKey o = q)) := by
  constructor
  · obtain ⟨rest, hr⟩ := rentLoop_trace_append rent (sortOffers offers)
    exact ⟨rest, by rw [mainRun]; exact hr⟩
  · set p : Offer → Bool := fun o => decide (sortKey o = q) with hp
    have hPair : (offers.filter p).Pairwise (keyLE · ·) := by
      apply List.pairwise_of_forall_mem_list
      intro a ha b hb
      have ha' : sortKey a = q := of_decide_eq_true (List.mem_filter.mp ha).2
      have hb' : sortKey b = q := of_decide_eq_true (List.mem_filter.mp hb).2
      simp [keyLE, ha', hb']
    have hkey : List.Sublist (offers.filter p) (sortOffers offers) :=
      List.sublist_mergeSort keyLE_trans keyLE_total hPair
        (List.filter_sublist offers)
    have hidem : (offers.filter p).filter p = offers.filter p :=
      List.filter_eq_self.mpr fun a ha => (List.mem_filter.mp ha).2
    have hfil : List.Sublist (offers.filter p)
        ((sortOffers offers).filter p) := by
      have := hkey.filter p
      rwa [hidem] at this
    have hperm : ((sortOffers offers).filter p).Perm (offers.filter p) := by
      rw [sortOffers]
      exact (List.mergeSort_perm offers keyLE).filter p
    exact (hfil.eq_of_length hperm.length_eq.symm).symm


/-! ## Helper lemmas: the lookup pass and the poll loops -/

/-- Scan equation: an element whose record access fails aborts the pass. -/
theorem findMatch_cons_abort {t : Int} {item : JVal} {rest : List JVal}
    (h : item.getKey "id" = none) : findMatch t (item :: rest) = none := by
  rw [findMatch, h]

/-- Scan equation: a matching element is returned. -/
theorem findMatch_cons_found {t : Int} {item : JVal} {rest : List JVal}
    {v : JVal} (h : item.getKey "id" = some v) (hm : idMatches t v = true) :
    findMatch t (item :: rest) = some item := by
  rw [findMatch, h]
  exact if_pos hm

/-- Scan equation: a non-matching element is skipped. -/
theorem findMatch_cons_skip {t : Int} {item : JVal} {rest : List JVal}
    {v : JVal} (h : item.getKey "id" = some v) (hm : idMatches t v = false) :
    findMatch t (item :: rest) = findMatch t rest := by
  rw [findMatch, h]
  exact if_neg (by simp [hm])

/-- A scan prefix in which every element has a non-matching `id` is
skipped. -/
theorem findMatch_append_of_no_match (t : Int) :
    ∀ (pre rest : List JVal),
      (∀ x ∈ pre, ∃ v, x.getKey "id" = some v ∧ idMatches t v = false) →
      findMatch t (pre ++ rest) = findMatch t rest := by
  intro pre
  induction pre with
  | nil => intro rest _; rfl
  | cons x xs ih =>
    intro rest hpre
    obtain ⟨v, hv, hvm⟩ := hpre x (List.mem_cons_self x xs)
    rw [List.cons_append, findMatch_cons_skip hv hvm]
    exact ih rest fun y hy => hpre y (List.mem_cons_of_mem x hy)

/-- A found record is an element of the scanned list and has a matching
`id`. -/
theorem findMatch_mem {t : Int} :
    ∀ {items : List JVal} {inst : JVal}, findMatch t items = some inst →
      inst ∈ items ∧ ∃ v, inst.getKey "id" = some v ∧ idMatches t v = true := by
  intro items
  induction items with
  | nil => intro inst h; cases h
  | cons x xs ih =>
    intro inst h
    cases hv : x.getKey "id" with
    | none => rw [findMatch_cons_abort hv] at h; cases h
    | some v =>
      cases hm : idMatches t v with
      | true =>
        rw [findMatch_cons_found hv hm] at h
        cases h
        exact ⟨List.mem_cons_self x xs, v, hv, hm⟩
      | false =>
        rw [findMatch_cons_skip hv hm] at h
        obtain ⟨hmem, hv'⟩ := ih h
        exact ⟨List.mem_cons_of_mem x hmem, hv'⟩

/-- Inversion of Variant B's lookup: a returned record comes from a parsed
list containing it. -/
theorem checkStatusB_some {r : Option JVal} {inst : JVal}
    (h : checkStatusB r = some inst) :
    ∃ items, r = some (JVal.arr items) ∧
      findMatch instance_id items = some inst := by
  cases r with
  | none => simp [checkStatusB] at h
  | some v =>
    cases v with
    | arr items => exact ⟨items, rfl, h⟩
    | null => simp [checkStatusB] at h
    | bool b => simp [checkStatusB] at h
    | num q => simp [checkStatusB] at h
    | str s => simp [checkStatusB] at h
    | obj fs => simp [checkStatusB] at h

/-- `hitB` when the lookup returns nothing. -/
theorem hitB_of_none {r : Option JVal} (h : checkStatusB r = none) :
    hitB r = false := by
  rw [hitB, h]

/-- `hitB` when the lookup returns a record. -/
theorem hitB_of_some {r : Option JVal} {inst : JVal}
    (h : checkStatusB r = some inst) :
    hitB r = isRunningState (inst.getKey "cur_state") := by
  rw [hitB, h]

/-- A breaking Variant B cycle with its found record. -/
theorem hitB_checkStatus {r : Option JVal} (h : hitB r = true) :
    ∃ inst, checkStatusB r = some inst ∧
      isRunningState (inst.getKey "cur_state") = true := by
  cases hcs : checkStatusB r with
  | none => rw [hitB_of_none hcs] at h; cases h
  | some inst =>
    rw [hitB_of_some hcs] at h
    exact ⟨inst, rfl, h⟩

/-- A cycle on which Variant B breaks exhibits, in that same response, a
record with the target `id` whose `cur_state` is `"running"` — the spec's
trigger predicate holds there. -/
theorem hitB_contains {r : Option JVal} (h : hitB r = true) :
    containsRunningB r = true := by
  obtain ⟨inst, hcs, hrun⟩ := hitB_checkStatus h
  obtain ⟨items, rfl, hfind⟩ := checkStatusB_some hcs
  obtain ⟨hmem, v, hv, hvm⟩ := findMatch_mem hfind
  rw [containsRunningB, List.any_eq_true]
  refine ⟨inst, hmem, ?_⟩
  rw [hv]
  show (idMatches instance_id v && isRunningState (inst.getKey "cur_state")) = true
  rw [hvm, hrun]
  rfl

/-- Loop-step equation: failed lookup, continue. -/
theorem pollB_succ_none {resp : Nat → Option JVal} {i fuel : Nat}
    (h : checkStatusB (resp i) = none) :
    pollB resp i (fuel + 1) = pollB resp (i + 1) fuel := by
  rw [pollB, h]

/-- Loop-step equation: record found in `"running"` state, break. -/
theorem pollB_succ_run {resp : Nat → Option JVal} {i fuel : Nat} {inst : JVal}
    (h : checkStatusB (resp i) = some inst)
    (hr : isRunningState (inst.getKey "cur_state") = true) :
    pollB resp i (fuel + 1) = some (i, inst) := by
  rw [pollB, h]
  exact if_pos hr

/-- Loop-step equation: record found in another state, continue. -/
theorem pollB_succ_notrun {resp : Nat → Option JVal} {i fuel : Nat}
    {inst : JVal} (h : checkStatusB (resp i) = some inst)
    (hr : isRunningState (inst.getKey "cur_state") = false) :
    pollB resp i (fuel + 1) = pollB resp (i + 1) fuel := by
  rw [pollB, h]
  exact if_neg (by simp [hr])

/-- One step of the Variant B loop on a non-breaking cycle. -/
theorem pollB_succ_of_miss {resp : Nat → Option JVal} {i : Nat}
    (h : hitB (resp i) = false) (fuel : Nat) :
    pollB resp i (fuel + 1) = pollB resp (i + 1) fuel := by
  cases hcs : checkStatusB (resp i) with
  | none => exact pollB_succ_none hcs
  | some inst =>
    rw [hitB_of_some hcs] at h
    exact pollB_succ_notrun hcs h

/-- The Variant B loop returns nothing exactly when no cycle in its fuel
window breaks. -/
theorem pollB_none_iff {resp : Nat → Option JVal} :
    ∀ (fuel i : Nat), pollB resp i fuel = none ↔
      ∀ m, i ≤ m → m < i + fuel → hitB (resp m) = false := by
  intro fuel
  induction fuel with
  | zero =>
    intro i
    constructor
    · intro _ m h1 h2; omega
    · intro _; rfl
  | succ fuel ih =>
    intro i
    cases hh : hitB (resp i) with
    | true =>
      obtain ⟨inst, hcs, hrun⟩ := hitB_checkStatus hh
      rw [pollB_succ_run hcs hrun]
      constructor
      · intro hn; cases hn
      · intro hall
        have := hall i (le_refl i) (by omega)
        rw [hh] at this; cases this
    | false =>
      rw [pollB_succ_of_miss hh fuel, ih (i + 1)]
      constructor
      · intro hall m h1 h2
        rcases Nat.eq_or_lt_of_le h1 with rfl | hlt
        · exact hh
        · exact hall m hlt (by omega)
      · intro hall m h1 h2
        exact hall m (by omega) (by omega)

/-- A successful Variant B run breaks on a breaking cycle. -/
theorem pollB_some_hit {resp : Nat → Option JVal} :
    ∀ {fuel i n : Nat} {inst : JVal}, pollB resp i fuel = some (n, inst) →
      hitB (resp n) = true ∧ checkStatusB (resp n) = some inst := by
  intro fuel
  induction fuel with
  | zero => intro i n inst h; cases h
  | succ fuel ih =>
    intro i n inst h
    cases hcs : checkStatusB (resp i) with
    | none =>
      rw [pollB_succ_none hcs] at h
      exact ih h
    | some inst0 =>
      cases hrun : isRunningState (inst0.getKey "cur_state") with
      | true =>
        rw [pollB_succ_run hcs hrun] at h
        cases h
        exact ⟨by rw [hitB_of_some hcs, hrun], hcs⟩
      | false =>
        rw [pollB_succ_notrun hcs hrun] at h
        exact ih h

/-- The Variant B loop skips a window of non-breaking cycles. -/
theorem pollB_shift {resp : Nat → Option JVal} :
    ∀ (k i : Nat),
      (∀ m, i ≤ m → m < i + k → hitB (resp m) = false) →
      ∀ fuel, pollB resp i (k + fuel) = pollB resp (i + k) fuel := by
  intro k
  induction k with
  | zero => intro i _ fuel; simp
  | succ k ih =>
    intro i hmiss fuel
    have h0 : hitB (resp i) = false := hmiss i (le_refl i) (by omega)
    have heq : k + 1 + fuel = (k + fuel) + 1 := by omega
    rw [heq, pollB_succ_of_miss h0 (k + fuel)]
    have := ih (i + 1) (fun m h1 h2 => hmiss m (by omega) (by omega)) fuel
    rw [this]
    congr 1
    omega

/-- Report equation: failed lookup. -/
theorem cycleB_of_none {r : Option JVal} (h : checkStatusB r = none) :
    cycleB r = ReportB.notFound := by
  rw [cycleB, h]

/-- Report equation: record found, not running. -/
theorem cycleB_of_notrun {r : Option JVal} {inst : JVal}
    (h : checkStatusB r = some inst)
    (hr : isRunningState (inst.getKey "cur_state") = false) :
    cycleB r = ReportB.stateSeen (inst.getKey "cur_state") := by
  rw [cycleB, h]
  exact if_neg (by simp [hr])

/-- Report equation: record found running — SSH host and port printed. -/
theorem cycleB_of_run {r : Option JVal} {inst : JVal}
    (h : checkStatusB r = some inst)
    (hr : isRunningState (inst.getKey "cur_state") = true) :
    cycleB r = ReportB.runningSSH (inst.getKey "ssh_host")
      (inst.getKey "ssh_port") := by
  rw [cycleB, h]
  exact if_pos hr

/-- Variant A state equation: empty-handed scan. -/
theorem checkStatusA_of_arr_none {items : List JVal}
    (hf : findMatch instanceIdA items = none) :
    checkStatusA (some (JVal.arr items)) = JVal.str "unknown" := by
  rw [checkStatusA, hf]

/-- Variant A state equation: record found with a `cur_state` field. -/
theorem checkStatusA_of_found {items : List JVal} {inst st : JVal}
    (hf : findMatch instanceIdA items = some inst)
    (hst : inst.getKey "cur_state" = some st) :
    checkStatusA (some (JVal.arr items)) = st := by
  rw [checkStatusA, hf]
  show (match inst.getKey "cur_state" with
        | some st => st
        | none => JVal.str "unknown") = st
  rw [hst]

/-- Variant A state equation: record found, `cur_state` access raises. -/
theorem checkStatusA_of_found_nostate {items : List JVal} {inst : JVal}
    (hf : findMatch instanceIdA items = some inst)
    (hst : inst.getKey "cur_state" = none) :
    checkStatusA (some (JVal.arr items)) = JVal.str "unknown" := by
  rw [checkStatusA, hf]
  show (match inst.getKey "cur_state" with
        | some st => st
        | none => JVal.str "unknown") = JVal.str "unknown"
  rw [hst]

/-- `hitA` through a string state. -/
theorem hitA_of_str {r : Option JVal} {s : String}
    (h : checkStatusA r = JVal.str s) : hitA r = (s == "running") := by
  rw [hitA, h]

/-- A breaking Variant A cycle observed the state `"running"`. -/
theorem hitA_running {r : Option JVal} (h : hitA r = true) :
    checkStatusA r = JVal.str "running" := by
  cases hcs : checkStatusA r with
  | str s =>
    rw [hitA_of_str hcs] at h
    exact congrArg JVal.str (eq_of_beq h)
  | null => rw [hitA, hcs] at h; cases h
  | bool b => rw [hitA, hcs] at h; cases h
  | num q => rw [hitA, hcs] at h; cases h
  | arr l => rw [hitA, hcs] at h; cases h
  | obj fs => rw [hitA, hcs] at h; cases h

/-- Inversion of a `"running"` observation in Variant A: it can only come
from a found record whose `cur_state` field is the string `"running"`. -/
theorem checkStatusA_running {r : Option JVal}
    (h : checkStatusA r = JVal.str "running") :
    ∃ items inst, r = some (JVal.arr items) ∧
      findMatch instanceIdA items = some inst ∧
      inst.getKey "cur_state" = some (JVal.str "running") := by
  cases r with
  | none => simp [checkStatusA] at h
  | some v =>
    cases v with
    | arr items =>
      cases hf : findMatch instanceIdA items with
      | none => rw [checkStatusA_of_arr_none hf] at h; simp at h
      | some inst =>
        cases hst : inst.getKey "cur_state" with
        | none => rw [checkStatusA_of_found_nostate hf hst] at h; simp at h
        | some st =>
          rw [checkStatusA_of_found hf hst] at h
          exact ⟨items, inst, rfl, hf, by rw [hst, h]⟩
    | null => simp [checkStatusA] at h
    | bool b => simp [checkStatusA] at h
    | num q => simp [checkStatusA] at h
    | str s => simp [checkStatusA] at h
    | obj fs => simp [checkStatusA] at h

/-- Variant A never breaks when no cycle observes `"running"`. -/
theorem pollA_none_of_no_hit {resp : Nat → Option JVal}
    (h : ∀ n, hitA (resp n) = false) :
    ∀ (fuel i : Nat), pollA resp i fuel = none := by
  intro fuel
  induction fuel with
  | zero => intro i; rfl
  | succ fuel ih =>
    intro i
    rw [pollA, h i, if_neg (by simp)]
    exact ih (i + 1)

/-- A successful Variant A run breaks on a breaking cycle. -/
theorem pollA_some_hit {resp : Nat → Option JVal} :
    ∀ {fuel i n : Nat}, pollA resp i fuel = some n → hitA (resp n) = true := by
  intro fuel
  induction fuel with
  | zero => intro i n h; cases h
  | succ fuel ih =>
    intro i n h
    cases hh : hitA (resp i) with
    | true =>
      rw [pollA, hh, if_pos rfl] at h
      cases h
      exact hh
    | false =>
      rw [pollA, hh, if_neg (by simp)] at h
      exact ih h

/-- C4, counterexample to the claim as stated: every polled response of
`cexRespB` contains a record with the target id in state `"running"` (it is
the second element), yet the loop never terminates, because `check_status`
returns the first record with the target id — here the `"loading"` one — and
only that record's state is consulted. -/
theorem c4_counterexample :
    containsRunningB (cexRespB 0) = true ∧ ¬ TerminatesB cexRespB := by
  constructor
  · decide
  · rintro ⟨fuel, n, inst, hp⟩
    have h := (pollB_some_hit hp).1
    have hconst : cexRespB n = some (JVal.arr [recLoading, recRunningB]) := rfl
    have hfalse : hitB (cexRespB n) = false := by rw [hconst]; decide
    rw [hfalse] at h
    cases h

/-- C4, amended: Variant B terminates exactly when some cycle's lookup —
the first record of the parsed response whose `id` equals the target —
is in state `"running"`; it never terminates when no response even contains
a running target record; and at the first such cycle `n` it has made no
earlier break (fuel up to `n` returns nothing), breaks at fuel `n + 1` on
that first matching record, and prints that record's `ssh_host` and
`ssh_port`; such a response does contain a running target record, so the
"only when" half of the original claim holds. -/
theorem c4_poll_b_breaks_on_first_running_match (resp : Nat → Option JVal) :
    (TerminatesB resp ↔ ∃ n, hitB (resp n) = true) ∧
    ((∀ n, containsRunningB (resp n) = false) → ¬ TerminatesB resp) ∧
    (∀ n, hitB (resp n) = true → (∀ m, m < n → hitB (resp m) = false) →
      (∀ f, f ≤ n → pollB resp 0 f = none) ∧
      ∃ inst, pollB resp 0 (n + 1) = some (n, inst) ∧
        checkStatusB (resp n) = some inst ∧
        isRunningState (inst.getKey "cur_state") = true ∧
        cycleB (resp n) = ReportB.runningSSH (inst.getKey "ssh_host")
          (inst.getKey "ssh_port") ∧
        containsRunningB (resp n) = true) := by
  have hiff : TerminatesB resp ↔ ∃ n, hitB (resp n) = true := by
    constructor
    · rintro ⟨fuel, n, inst, hp⟩
      exact ⟨n, (pollB_some_hit hp).1⟩
    · rintro ⟨n, hn⟩
      cases hv : pollB resp 0 (n + 1) with
      | none =>
        rw [pollB_none_iff] at hv
        have := hv n (Nat.zero_le n) (by omega)
        rw [hn] at this
        cases this
      | some p =>
        exact ⟨n + 1, p.1, p.2, by rw [hv]⟩
  refine ⟨hiff, ?_, ?_⟩
  · intro hall hterm
    obtain ⟨n, hn⟩ := hiff.mp hterm
    have hc := hitB_contains hn
    rw [hall n] at hc
    cases hc
  · intro n hn hmin
    constructor
    · intro f hf
      rw [pollB_none_iff]
      intro m h1 h2
      exact hmin m (by omega)
    · obtain ⟨inst, hcs, hrun⟩ := hitB_checkStatus hn
      refine ⟨inst, ?_, hcs, hrun, cycleB_of_run hcs hrun, hitB_contains hn⟩
      have hsh := pollB_shift n 0 (fun m h1 h2 => hmin m (by omega)) 1
      rw [Nat.zero_add] at hsh
      rw [hsh]
      exact pollB_succ_run hcs hrun

/-- Witness for the amended C4 on the stream whose very first cycle finds
the running target. -/
theorem c4_poll_b_breaks_on_first_running_match_witness :
    hitB (wRespB 0) = true ∧
    pollB wRespB 0 0 = none ∧
    (∃ inst, pollB wRespB 0 1 = some (0, inst) ∧
      checkStatusB (wRespB 0) = some inst ∧
      isRunningState (inst.getKey "cur_state") = true ∧
      cycleB (wRespB 0) = ReportB.runningSSH (inst.getKey "ssh_host")
        (inst.getKey "ssh_port") ∧
      containsRunningB (wRespB 0) = true) := by
  have h := (c4_poll_b_breaks_on_first_running_match wRespB).2.2 0 (by decide)
    (fun m hm => absurd hm (Nat.not_lt_zero m))
  exact ⟨by decide, h.1 0 (le_refl 0), h.2⟩

/-- C7: Variant A (wait_for_gpu.py) breaks only on an observed `"running"`
state.  First conjunct: while only non-`"running"` states are observed the
loop never terminates, for any response stream, however malformed.  Second
conjunct: every exception path of a cycle — subprocess or parse failure
(`none`), a parsed value that is not a list, a scan aborted by a record
access or finding nothing, or a found record without `cur_state` — yields
the state `"unknown"`, on which the loop continues.  Third conjunct: if the
loop terminates, some cycle's target record (the first with a matching id)
had `cur_state` equal to `"running"`. -/
theorem c7_variant_a_swallows_and_waits (resp : Nat → Option JVal) :
    ((∀ n, checkStatusA (resp n) ≠ JVal.str "running") → ¬ TerminatesA resp) ∧
    (∀ r : Option JVal,
      (r = none ∨ (∀ items, r ≠ some (JVal.arr items)) ∨
        (∃ items, r = some (JVal.arr items) ∧
          findMatch instanceIdA items = none) ∨
        (∃ items inst, r = some (JVal.arr items) ∧
          findMatch instanceIdA items = some inst ∧
          inst.getKey "cur_state" = none)) →
      checkStatusA r = JVal.str "unknown" ∧ hitA r = false) ∧
    (TerminatesA resp → ∃ n items inst, resp n = some (JVal.arr items) ∧
      findMatch instanceIdA items = some inst ∧
      inst.getKey "cur_state" = some (JVal.str "running")) := by
  refine ⟨?_, ?_, ?_⟩
  · rintro hne ⟨fuel, n, hp⟩
    exact hne n (hitA_running (pollA_some_hit hp))
  · intro r hcase
    have hck : checkStatusA r = JVal.str "unknown" := by
      rcases hcase with rfl | hnot | ⟨items, rfl, hf⟩ | ⟨items, inst, rfl, hf, hst⟩
      · rfl
      · cases r with
        | none => rfl
        | some v =>
          cases v with
          | arr items => exact absurd rfl (hnot items)
          | null => rfl
          | bool b => rfl
          | num q => rfl
          | str s => rfl
          | obj fs => rfl
      · exact checkStatusA_of_arr_none hf
      · exact checkStatusA_of_found_nostate hf hst
    refine ⟨hck, ?_⟩
    rw [hitA_of_str hck]
    rfl
  · rintro ⟨fuel, n, hp⟩
    obtain ⟨items, inst, hr, hf, hst⟩ :=
      checkStatusA_running (hitA_running (pollA_some_hit hp))
    exact ⟨n, items, inst, hr, hf, hst⟩

/-- Witness for C7 on the stream whose every poll fails to parse. -/
theorem c7_variant_a_swallows_and_waits_witness :
    ¬ TerminatesA (fun _ => none) ∧
    (checkStatusA none = JVal.str "unknown" ∧ hitA none = false) := by
  refine ⟨(c7_variant_a_swallows_and_waits (fun _ => none)).1 ?_,
    (c7_variant_a_swallows_and_waits (fun _ => none)).2.1 none (Or.inl rfl)⟩
  intro n h
  simp [checkStatusA] at h

/-- C8, counterexample to the claim as stated: a cycle whose response holds
the target record in state `"loading"` does not observe the target in
running state, yet it does not report "not found yet" — it reports the
record's current state — although the loop does continue (no break). -/
theorem c8_counterexample :
    cycleB (some (JVal.arr [recLoading])) =
      ReportB.stateSeen (some (JVal.str "loading")) ∧
    cycleB (some (JVal.arr [recLoading])) ≠ ReportB.notFound ∧
    hitB (some (JVal.arr [recLoading])) = false := by
  have hcs : checkStatusB (some (JVal.arr [recLoading])) = some recLoading := rfl
  have hns : isRunningState (recLoading.getKey "cur_state") = false := rfl
  have h1 : cycleB (some (JVal.arr [recLoading])) =
      ReportB.stateSeen (some (JVal.str "loading")) := by
    exact cycleB_of_notrun hcs hns
  refine ⟨h1, ?_, by decide⟩
  rw [h1]
  intro h
  cases h

/-- C8, amended: in a Variant B cycle that does not observe the target
record in running state the loop continues, and the cycle reports "not found
yet" exactly when the lookup returns no record; when a record is found in a
non-running state the cycle instead reports that record's current state. -/
theorem c8_not_found_vs_state_report (r : Option JVal)
    (resp : Nat → Option JVal) (n fuel : Nat) :
    (checkStatusB r = none → cycleB r = ReportB.notFound) ∧
    (∀ inst, checkStatusB r = some inst →
      isRunningState (inst.getKey "cur_state") = false →
      cycleB r = ReportB.stateSeen (inst.getKey "cur_state") ∧
      cycleB r ≠ ReportB.notFound) ∧
    (hitB (resp n) = false → pollB resp n (fuel + 1) = pollB resp (n + 1) fuel) := by
  refine ⟨fun h => cycleB_of_none h, ?_, fun h => pollB_succ_of_miss h fuel⟩
  intro inst h hr
  have hc := cycleB_of_notrun h hr
  refine ⟨hc, ?_⟩
  rw [hc]
  intro hcontra
  cases hcontra

/-- Witness for the amended C8: the not-found case at a failed poll, the
state-report case at a `"loading"` response, and loop continuation. -/
theorem c8_not_found_vs_state_report_witness :
    cycleB none = ReportB.notFound ∧
    (cycleB (some (JVal.arr [recLoading])) =
        ReportB.stateSeen (recLoading.getKey "cur_state") ∧
      cycleB (some (JVal.arr [recLoading])) ≠ ReportB.notFound) ∧
    pollB (fun _ => none) 0 1 = pollB (fun _ => none) 1 0 := by
  refine ⟨(c8_not_found_vs_state_report none (fun _ => none) 0 0).1 rfl,
    (c8_not_found_vs_state_report (some (JVal.arr [recLoading]))
      (fun _ => none) 0 0).2.1 recLoading rfl rfl,
    (c8_not_found_vs_state_report none (fun _ => none) 0 0).2.2 (by decide)⟩

/-- C9: in both poll variants a cycle's scan aborts at the first element on
which record access fails.  If every element before `bad` carries a
non-matching id and `bad` has no accessible `id` field (it is not a dict, or
lacks the key), the whole cycle fails — Variant A reports `"unknown"`,
Variant B finds no record — for every continuation `post`, in particular
when `post` contains the target record in state `"running"`. -/
theorem c9_scan_aborts_at_first_bad_element (pre post : List JVal)
    (bad : JVal) (hbad : bad.getKey "id" = none)
    (hpreA : ∀ x ∈ pre, ∃ v, x.getKey "id" = some v ∧
      idMatches instanceIdA v = false)
    (hpreB : ∀ x ∈ pre, ∃ v, x.getKey "id" = some v ∧
      idMatches instance_id v = false) :
    checkStatusA (some (JVal.arr (pre ++ bad :: post))) = JVal.str "unknown" ∧
    checkStatusB (some (JVal.arr (pre ++ bad :: post))) = none := by
  have hA : findMatch instanceIdA (pre ++ bad :: post) = none := by
    rw [findMatch_append_of_no_match instanceIdA pre _ hpreA,
      findMatch_cons_abort hbad]
  have hB : findMatch instance_id (pre ++ bad :: post) = none := by
    rw [findMatch_append_of_no_match instance_id pre _ hpreB,
      findMatch_cons_abort hbad]
  refine ⟨checkStatusA_of_arr_none hA, ?_⟩
  rw [checkStatusB]
  exact hB

/-- Witness for C9: the empty dict `{}` aborts both scans although both
targets' running records follow it in the same response. -/
theorem c9_scan_aborts_at_first_bad_element_witness :
    (JVal.obj []).getKey "id" = none ∧
    checkStatusA (some (JVal.arr
      ([] ++ JVal.obj [] :: [recRunningA, recRunningB]))) =
      JVal.str "unknown" ∧
    checkStatusB (some (JVal.arr
      ([] ++ JVal.obj [] :: [recRunningA, recRunningB]))) = none := by
  refine ⟨rfl, ?_⟩
  exact c9_scan_aborts_at_first_bad_element [] [recRunningA, recRunningB]
    (JVal.obj []) rfl (fun x hx => absurd hx (List.not_mem_nil x))
    (fun x hx => absurd hx (List.not_mem_nil x))

/-! ## Substring scan correctness, offer retrieval and the rental test -/

/-- `prefixTest` decides the prefix relation on character lists. -/
theorem prefixTest_iff : ∀ needle hay : List Char,
    prefixTest needle hay = true ↔ needle <+: hay := by
  intro needle
  induction needle with
  | nil => intro hay; simp [prefixTest]
  | cons c cs ih =>
    intro hay
    cases hay with
    | nil => simp [prefixTest]
    | cons d ds =>
      rw [prefixTest]
      simp [List.cons_prefix_cons, ih ds, Bool.and_eq_true]

/-- `substrTest` decides the contiguous-substring (infix) relation. -/
theorem substrTest_iff (needle : List Char) : ∀ hay : List Char,
    substrTest needle hay = true ↔ needle <:+: hay := by
  intro hay
  induction hay with
  | nil =>
    rw [substrTest, prefixTest_iff]
    simp
  | cons d ds ih =>
    rw [substrTest, List.infix_cons_iff]
    simp [Bool.or_eq_true, prefixTest_iff, ih]

/-- C6: `rent_instance` reports success exactly when the captured stdout of
the create-instance command contains the substring `"started"` or the
success-flag substring `'success': True`; on any other stdout it reports
failure. -/
theorem c6_rent_instance_marker_scan (out : String) :
    rent_instance out = true ↔
      ("started".toList <:+: out.toList ∨
        successFlag.toList <:+: out.toList) := by
  rw [rent_instance, Bool.or_eq_true, strContains, strContains,
    substrTest_iff, substrTest_iff]

/-- C5: on a raising search subprocess, or on search output that `json.loads`
rejects, offer retrieval returns the empty list; and on every outcome
whatsoever it returns normally — no exception reaches the caller. -/
theorem c5_get_offers_failure_yields_empty
    (loads : String → Except String JVal) (run : SubprocResult)
    (h : run = SubprocResult.raised ∨
      ∃ out err e, run = SubprocResult.completed out err ∧
        loads out = Except.error e) :
    get_offers loads run = Except.ok (JVal.arr []) ∧
    ∀ r : SubprocResult, ∃ v, get_offers loads r = Except.ok v := by
  constructor
  · rcases h with rfl | ⟨out, err, e, rfl, he⟩
    · rfl
    · rw [get_offers, he]
  · intro r
    cases r with
    | raised => exact ⟨.arr [], rfl⟩
    | completed out err =>
      cases hl : loads out with
      | ok v => exact ⟨v, by rw [get_offers, hl]⟩
      | error e => exact ⟨.arr [], by rw [get_offers, hl]⟩

/-- Witness for C5: a raising subprocess yields the empty list, and a
completed subprocess with unparseable stdout still returns normally. -/
theorem c5_get_offers_failure_yields_empty_witness :
    get_offers (fun _ => Except.error "bad") SubprocResult.raised =
      Except.ok (JVal.arr []) ∧
    (∃ v, get_offers (fun _ => Except.error "bad")
      (SubprocResult.completed "not json" "") = Except.ok v) :=
  ⟨(c5_get_offers_failure_yields_empty (fun _ => Except.error "bad")
      SubprocResult.raised (Or.inl rfl)).1,
    (c5_get_offers_failure_yields_empty (fun _ => Except.error "bad")
      SubprocResult.raised (Or.inl rfl)).2
      (SubprocResult.completed "not json" "")⟩
